import Mathlib

/-!
Shallow embedding of the averaging / result-assembly engine of the
abaqus-odb-tools repository (odbFieldVariableClasses.py,
odbFetchFieldOutput.py, myFileOperations.py).

Machine floats (numpy float64) are modelled by exact rationals; the spec's
"to floating-point tolerance" phrases are read as exact equalities over ℚ.
-/

namespace OdbTools

/-! ## fieldVariable state and its property setters
    (odbFieldVariableClasses.py, class fieldVariable) -/

/-- State of a `fieldVariable` object: the three identifier attributes and
the five result attributes (`None` = Python `None`). -/
structure FieldVarState where
  odbPath : String
  dataName : String
  setName : String
  totalTime : Option (List ℚ)
  nodeLabels : Option (List ℤ)
  elementLabels : Option (List ℤ)
  intPtLabels : Option (List ℕ)
  resultData : Option (List (List ℚ))
deriving Repr, DecidableEq

/-- `fieldVariable.reset`: sets the five result attributes to `None`. -/
def FieldVarState.reset (st : FieldVarState) : FieldVarState :=
  { st with totalTime := none, nodeLabels := none, elementLabels := none,
            intPtLabels := none, resultData := none }

/-- `odbPath` setter: stores the new path, then calls `reset`. -/
def FieldVarState.setOdbPath (st : FieldVarState) (s : String) : FieldVarState :=
  FieldVarState.reset { st with odbPath := s }

/-- `dataName` setter: stores the upper-cased name, then calls `reset`. -/
def FieldVarState.setDataName (st : FieldVarState) (s : String) : FieldVarState :=
  FieldVarState.reset { st with dataName := s.toUpper }

/-- `setName` setter: stores the upper-cased name, then calls `reset`. -/
def FieldVarState.setSetName (st : FieldVarState) (s : String) : FieldVarState :=
  FieldVarState.reset { st with setName := s.toUpper }

/-! ## Filename derivation
    (`fieldVariable._saveOdbFieldDataCSV` and `myFileOperations.safe_filename`) -/

/-- The characters actually matched by the regex `[<>:"/\|?*]` of
`safe_filename`.  In a Python regex character class `\|` is an escaped
pipe, so the class matches `< > : " / | ? *` — and not the backslash. -/
def strippedChars : List Char := ['<', '>', ':', '"', '/', '|', '?', '*']

/-- `safe_filename`: removes every occurrence of a matched character
(`re.sub(pattern, '', name)`). -/
def safe_filename (name : String) : String :=
  ⟨name.toList.filter (fun c => ¬ (c ∈ strippedChars))⟩

/-- `_saveOdbFieldDataCSV` default filename: extension-less archive name,
set name and data title joined by underscores with extension `.csv`,
passed through `safe_filename`. -/
def saveFileName (odbBase setName dataTitle : String) : String :=
  safe_filename (odbBase ++ "_" ++ setName ++ "_" ++ dataTitle ++ ".csv")

/-- The characters Windows forbids in a file name. -/
def windowsIllegalChars : List Char := ['<', '>', ':', '"', '/', '\\', '|', '?', '*']

/-! ## Raw samples and the nodal averaging engine
    (`IntPtVariable.fetchNodalAverage`, odbFieldVariableClasses.py lines 594-618) -/

/-- One raw `ELEMENT_NODAL` sample record of a frame's field output:
`value.nodeLabel` and the numeric payload `getattr(value, self.abqAttrib)`. -/
structure Sample where
  nodeLabel : ℕ
  value : ℚ
deriving Repr, DecidableEq

/-- Functional model of a numpy array store `a[i] = v`. -/
def updFn (f : ℕ → ℚ) (i : ℕ) (v : ℚ) : ℕ → ℚ :=
  fun j => if j = i then v else f j

/-- One iteration of the sample loop of `fetchNodalAverage`:
`frameData[value.nodeLabel-1,0] += payload; nValPerNode[value.nodeLabel-1,0] += 1.0`
(arrays are keyed here by the label itself; the constant `-1` index shift
of the code is immaterial). -/
def accumStep (acc : (ℕ → ℚ) × (ℕ → ℚ)) (s : Sample) : (ℕ → ℚ) × (ℕ → ℚ) :=
  (updFn acc.1 s.nodeLabel (acc.1 s.nodeLabel + s.value),
   updFn acc.2 s.nodeLabel (acc.2 s.nodeLabel + 1))

/-- The whole sample loop: running sums `frameData` and counts `nValPerNode`,
both initialized to zeros. -/
def accumulate (samples : List Sample) : (ℕ → ℚ) × (ℕ → ℚ) :=
  samples.foldl accumStep (fun _ => 0, fun _ => 0)

/-- The aggregated value for one node:
`frameData[n-1,0] / nValPerNode[n-1,0]` (element-wise numpy divide). -/
def nodalAverageValue (samples : List Sample) (n : ℕ) : ℚ :=
  (accumulate samples).1 n / (accumulate samples).2 n

/-- One output row of `fetchNodalAverage`:
`frameData[nodeLabels-1,0] / nValPerNode[nodeLabels-1,0]`. -/
def averageRow (nodeLabels : List ℕ) (samples : List Sample) : List ℚ :=
  nodeLabels.map (fun n => nodalAverageValue samples n)

/-- `IntPtVariable.__fetchNodeLabels`: the set's labels, sorted ascending. -/
def fetchNodeLabels (labels : List ℕ) : List ℕ :=
  labels.insertionSort (· ≤ ·)

/-- The raw samples reported for node `n`, in arrival order. -/
def samplesFor (samples : List Sample) (n : ℕ) : List ℚ :=
  (samples.filter (fun s => s.nodeLabel = n)).map Sample.value

/-- `numpy.mean` of a list of values (NaN on an empty list is modelled by
the junk value `0/0 = 0` of ℚ). -/
def npMean (l : List ℚ) : ℚ := l.sum / l.length

/-- One output row of the old averaging scheme used by
`odbFetchFieldOutput.getNodalPEEQ` (and `fetchElementAverage`): for each
label, gather the samples carrying that label and take their mean. -/
def averageRowOld (nodeLabels : List ℕ) (samples : List Sample) : List ℚ :=
  nodeLabels.map (fun n => npMean (samplesFor samples n))

/-! ## Frames, steps, and the frame loop -/

/-- One solution snapshot: its `frameValue`, the keys of its
`fieldOutputs` repository, and its `ELEMENT_NODAL` sample stream for the
requested region and key. -/
structure Frame where
  frameValue : ℚ
  fieldKeys : List String
  samples : List Sample
deriving Repr, DecidableEq

/-- One analysis step: its cumulative start time `step.totalTime` and its
ordered frames. -/
structure Step where
  stepTotalTime : ℚ
  frames : List Frame
deriving Repr, DecidableEq

/-- The archive abstraction: assembly-level node sets and the ordered steps. -/
structure Odb where
  nodeSets : List (String × List ℕ)
  steps : List Step
deriving Repr, DecidableEq

/-- All frames of all steps in walk order, each paired with its marker
`step.totalTime + frame.frameValue`. -/
def framePairs (odb : Odb) : List (ℚ × Frame) :=
  odb.steps.flatMap (fun st => st.frames.map (fun f => (st.stepTotalTime + f.frameValue, f)))

/-- The chronological marker sequence of the archive. -/
def rawMarkers (odb : Odb) : List ℚ := (framePairs odb).map Prod.fst

/-- The frame loop of `fetchNodalAverage` (lines 580-618): `seen` is the
`totalTime` list built so far; a frame whose marker is already in `seen`
is skipped (`continue`), otherwise the marker is appended and the averaged
row is written at index `len(totalTime)-1`.  Returns the (marker, row)
pairs in output order. -/
def fetchRows (nodeLabels : List ℕ) : List ℚ → List (ℚ × Frame) → List (ℚ × List ℚ)
  | _, [] => []
  | seen, (t, f) :: rest =>
      if t ∈ seen then fetchRows nodeLabels seen rest
      else (t, averageRow nodeLabels f.samples) :: fetchRows nodeLabels (seen ++ [t]) rest

/-- The marker skeleton of the frame loop: keep a marker only if it was
not seen before (first occurrence wins). -/
def newMarkers : List ℚ → List ℚ → List ℚ
  | _, [] => []
  | seen, t :: ts => if t ∈ seen then newMarkers seen ts else t :: newMarkers (seen ++ [t]) ts

/-- The de-duplicated (marker, frame) subsequence selected by the frame loop. -/
def dedupPairs : List ℚ → List (ℚ × Frame) → List (ℚ × Frame)
  | _, [] => []
  | seen, (t, f) :: rest =>
      if t ∈ seen then dedupPairs seen rest
      else (t, f) :: dedupPairs (seen ++ [t]) rest

/-- The final `totalTime` axis produced by `fetchNodalAverage`. -/
def fetchTotalTime (odb : Odb) (nodeLabels : List ℕ) : List ℚ :=
  (fetchRows nodeLabels [] (framePairs odb)).map Prod.fst

/-- The step loop of `odbFetchFieldOutput.getNodalPEEQ` (lines 231-283):
`i` is the running `stepNumber`; every frame appends one (marker, row)
pair, with no duplicate check, marker `frame.frameValue + stepNumber`. -/
def peeqRowsAux (nodeLabels : List ℕ) (i : ℕ) : List Step → List (ℚ × List ℚ)
  | [] => []
  | st :: rest =>
      st.frames.map (fun f => (f.frameValue + (i : ℚ), averageRowOld nodeLabels f.samples))
        ++ peeqRowsAux nodeLabels (i + 1) rest

/-- The (marker, row) output of `getNodalPEEQ`: one row per frame. -/
def peeqRows (odb : Odb) (nodeLabels : List ℕ) : List (ℚ × List ℚ) :=
  peeqRowsAux nodeLabels 0 odb.steps

/-- The `runCompletion` axis of `getNodalPEEQ`. -/
def runCompletion (odb : Odb) (nodeLabels : List ℕ) : List ℚ :=
  (peeqRows odb nodeLabels).map Prod.fst

/-- A two-step archive whose step boundary re-reports the same state:
step 1 starts at cumulative time 0 with frames at local values 0 and 1,
step 2 starts at cumulative time 1 with frames at local values 0 and 1
(so the last frame of step 1 and the first frame of step 2 carry the same
completion marker 1). -/
def dupOdb : Odb :=
  ⟨[("SET", [1])],
   [⟨0, [⟨0, ["PEEQ"], []⟩, ⟨1, ["PEEQ"], []⟩]⟩,
    ⟨1, [⟨0, ["PEEQ"], []⟩, ⟨1, ["PEEQ"], []⟩]⟩]⟩

/-! ## NodalVariable results and the across-set reductions
    (`NodalVariable.sumNodalOutput` / `avgNodalOutput`, lines 996-1054) -/

/-- A fetched `NodalVariable`'s result state: `resultData` is indexed
`[frame][node][component]`. -/
structure NodalOut where
  totalTime : List ℚ
  nodeLabels : List ℤ
  componentLabels : List String
  resultData : List (List (List ℚ))
deriving Repr, DecidableEq

/-- numpy read `resultData[f, n, d]` (0 outside the allocated array). -/
def entryAt (st : NodalOut) (f n d : ℕ) : ℚ :=
  ((st.resultData.getD f []).getD n []).getD d 0

/-- `sumNodalOutput`: a `(numframes, 1, numdim)` array whose single row
per frame holds, per component, the sum over `range(len(nodeLabels))` of
the old entries; node labels become the placeholder `(-1,)`; component
labels get a `summed` prefix; `totalTime` is untouched. -/
def sumNodalOutput (st : NodalOut) : NodalOut where
  totalTime := st.totalTime
  nodeLabels := [-1]
  componentLabels := st.componentLabels.map (fun c => "summed" ++ c)
  resultData :=
    (List.range st.totalTime.length).map (fun f =>
      [(List.range st.componentLabels.length).map (fun d =>
        (List.range st.nodeLabels.length).foldl
          (fun acc n => acc + entryAt st f n d) 0)])

/-- `avgNodalOutput`: same shape, each entry `numpy.mean(resultData[f,:,d])`
(the mean over the array's node axis), labels prefixed `average`. -/
def avgNodalOutput (st : NodalOut) : NodalOut where
  totalTime := st.totalTime
  nodeLabels := [-1]
  componentLabels := st.componentLabels.map (fun c => "average" ++ c)
  resultData :=
    (List.range st.totalTime.length).map (fun f =>
      [(List.range st.componentLabels.length).map (fun d =>
        npMean ((st.resultData.getD f []).map (fun row => row.getD d 0)))])

/-- A concrete fetched state: 2 frames, 2 nodes, 2 components. -/
def sampleNodalOut : NodalOut where
  totalTime := [0, 1]
  nodeLabels := [4, 7]
  componentLabels := ["U1", "U2"]
  resultData := [[[1, 2], [3, 4]], [[5, 6], [7, 8]]]

/-! ## Archive opening and existence checks
    (`fieldVariable._open_odb_check_keys`, lines 138-186, and
    `IntPtVariable.keyName`, lines 373-392) -/

/-- Archive interactions, in the order they are performed. -/
inductive AbqEvent
  | openArchive
  | setLookup
  | keyProbe
  | frameWalk
  | closeArchive
deriving Repr, DecidableEq

/-- The failure modes of an extraction request. -/
inductive AbqError
  | setNotFound
  | keyNotDefined
  | unsupportedQuantity
deriving Repr, DecidableEq

/-- `IntPtVariable.keyName`: the static map from a user-facing data name
to the archive storage key; any other name raises
(`'That dataName has not been programmed! (yet?)'`). -/
def keyName (dataName : String) : Except AbqError String :=
  if dataName = "PEEQ" then Except.ok "PEEQ"
  else if dataName = "MISES" then Except.ok "S"
  else if dataName = "PRESS" then Except.ok "S"
  else if dataName = "INV3" then Except.ok "S"
  else Except.error AbqError.unsupportedQuantity

/-- Dictionary lookup `odb.rootAssembly.nodeSets[setName]`. -/
def lookupSet (sets : List (String × List ℕ)) (name : String) : Option (List ℕ) :=
  (sets.find? (fun p => p.1 = name)).map Prod.snd

/-- `odb.steps[odb.steps.keys()[-1]].frames[-1].fieldOutputs` keys: the
field keys of the last frame of the last step. -/
def lastFrameFieldKeys (odb : Odb) : List String :=
  ((odb.steps.getLastD ⟨0, []⟩).frames.getLastD ⟨0, [], []⟩).fieldKeys

/-- `_open_odb_check_keys` with its archive-interaction trace: open the
archive; look the set up (on `KeyError`: close, raise `SetNotFound`);
probe `has_key(self.keyName)` — evaluating `self.keyName` itself raises
for an unsupported data name, with the archive left open — and if the key
is absent from the last frame of the last step: close, raise
`KeyNotDefined`. -/
def open_odb_check_keys (odb : Odb) (setName dataName : String) :
    List AbqEvent × Except AbqError (List ℕ) :=
  match lookupSet odb.nodeSets setName with
  | none => ([AbqEvent.openArchive, AbqEvent.setLookup, AbqEvent.closeArchive],
             Except.error AbqError.setNotFound)
  | some labels =>
      match keyName dataName with
      | Except.error e => ([AbqEvent.openArchive, AbqEvent.setLookup], Except.error e)
      | Except.ok k =>
          if k ∈ lastFrameFieldKeys odb then
            ([AbqEvent.openArchive, AbqEvent.setLookup, AbqEvent.keyProbe],
             Except.ok labels)
          else
            ([AbqEvent.openArchive, AbqEvent.setLookup, AbqEvent.keyProbe,
              AbqEvent.closeArchive],
             Except.error AbqError.keyNotDefined)

/-- `fetchNodalAverage` end to end: the checks, then (only on success) the
walk over every frame, then the final close. -/
def fetchNodalAverageRun (odb : Odb) (setName dataName : String) :
    List AbqEvent × Except AbqError (List (ℚ × List ℚ)) :=
  match open_odb_check_keys odb setName dataName with
  | (evs, Except.error e) => (evs, Except.error e)
  | (evs, Except.ok labels) =>
      (evs ++ (framePairs odb).map (fun _ => AbqEvent.frameWalk)
           ++ [AbqEvent.closeArchive],
       Except.ok (fetchRows (fetchNodeLabels labels) [] (framePairs odb)))

/-- An archive whose only step's only frame stores key `S` but not `PEEQ`. -/
def noKeyOdb : Odb := ⟨[("SET", [1])], [⟨0, [⟨0, ["S"], []⟩]⟩]⟩

/-! ## Helper lemmas -/

/-- The running sum accumulated by the sample loop equals the plain sum of
the samples carrying the node's label (generalized over the initial
accumulator). -/
lemma foldl_accumStep_fst (samples : List Sample) (n : ℕ) :
    ∀ acc : (ℕ → ℚ) × (ℕ → ℚ),
      (samples.foldl accumStep acc).1 n = acc.1 n + (samplesFor samples n).sum := by
  induction samples with
  | nil => intro acc; simp [samplesFor]
  | cons s ss ih =>
      intro acc
      rw [List.foldl_cons, ih]
      by_cases h : s.nodeLabel = n
      · simp [accumStep, updFn, samplesFor, h]
        ring
      · simp [accumStep, updFn, samplesFor, h, Ne.symm h]

/-- The running count accumulated by the sample loop equals the number of
samples carrying the node's label. -/
lemma foldl_accumStep_snd (samples : List Sample) (n : ℕ) :
    ∀ acc : (ℕ → ℚ) × (ℕ → ℚ),
      (samples.foldl accumStep acc).2 n = acc.2 n + (samplesFor samples n).length := by
  induction samples with
  | nil => intro acc; simp [samplesFor]
  | cons s ss ih =>
      intro acc
      rw [List.foldl_cons, ih]
      by_cases h : s.nodeLabel = n
      · simp [accumStep, updFn, samplesFor, h]
        ring
      · simp [accumStep, updFn, samplesFor, h, Ne.symm h]

lemma accumulate_fst (samples : List Sample) (n : ℕ) :
    (accumulate samples).1 n = (samplesFor samples n).sum := by
  rw [accumulate, foldl_accumStep_fst]; simp

lemma accumulate_snd (samples : List Sample) (n : ℕ) :
    (accumulate samples).2 n = (samplesFor samples n).length := by
  rw [accumulate, foldl_accumStep_snd]; simp

/-- Two consecutive sample-loop iterations commute: accumulation only adds
into per-label cells. -/
lemma accumStep_comm (z : (ℕ → ℚ) × (ℕ → ℚ)) (a b : Sample) :
    accumStep (accumStep z a) b = accumStep (accumStep z b) a := by
  rcases a with ⟨na, va⟩
  rcases b with ⟨nb, vb⟩
  refine Prod.ext ?_ ?_ <;> funext j <;>
    simp only [accumStep, updFn] <;> split_ifs <;> subst_vars <;>
      first | ring1 | (exfalso; omega)

/-- The sample loop is invariant under permutations of the sample stream. -/
lemma foldl_accumStep_perm {samples samples' : List Sample}
    (hp : samples.Perm samples') :
    ∀ acc, samples.foldl accumStep acc = samples'.foldl accumStep acc := by
  induction hp with
  | nil => intro acc; rfl
  | cons x p ih => intro acc; rw [List.foldl_cons, List.foldl_cons, ih]
  | swap x y l => intro acc; rw [List.foldl_cons, List.foldl_cons,
      List.foldl_cons, List.foldl_cons, accumStep_comm]
  | trans p q ih1 ih2 => intro acc; rw [ih1, ih2]

/-- The rows produced by the frame loop are exactly the de-duplicated
frames, each averaged with the one fixed label list. -/
lemma fetchRows_eq_map (nodeLabels : List ℕ) (ps : List (ℚ × Frame)) :
    ∀ seen, fetchRows nodeLabels seen ps
      = (dedupPairs seen ps).map (fun p => (p.1, averageRow nodeLabels p.2.samples)) := by
  induction ps with
  | nil => intro seen; rfl
  | cons p rest ih =>
      intro seen
      rw [fetchRows, dedupPairs]
      by_cases h : p.1 ∈ seen
      · simp [h, ih]
      · simp [h, ih]

/-- The markers of the frame-loop output are the `newMarkers` of the raw
marker sequence. -/
lemma fetchRows_markers (nodeLabels : List ℕ) (ps : List (ℚ × Frame)) :
    ∀ seen, (fetchRows nodeLabels seen ps).map Prod.fst
      = newMarkers seen (ps.map Prod.fst) := by
  induction ps with
  | nil => intro seen; rfl
  | cons p rest ih =>
      intro seen
      rw [fetchRows, List.map_cons, newMarkers]
      by_cases h : p.1 ∈ seen
      · simp [h, ih]
      · simp [h, ih]

lemma mem_newMarkers (x : ℚ) (l : List ℚ) :
    ∀ seen, x ∈ newMarkers seen l ↔ x ∈ l ∧ x ∉ seen := by
  induction l with
  | nil => intro seen; simp [newMarkers]
  | cons t ts ih =>
      intro seen
      rw [newMarkers]
      by_cases h : t ∈ seen
      · simp only [h, if_true, ih, List.mem_cons]
        constructor
        · rintro ⟨hx, hns⟩; exact ⟨Or.inr hx, hns⟩
        · rintro ⟨hx | hx, hns⟩
          · exact absurd (hx ▸ h) hns
          · exact ⟨hx, hns⟩
      · simp only [h, if_false, List.mem_cons, ih, List.mem_append,
          List.mem_singleton]
        constructor
        · rintro (rfl | ⟨hx, hns⟩)
          · exact ⟨Or.inl rfl, h⟩
          · exact ⟨Or.inr hx, fun hs => hns (Or.inl hs)⟩
        · rintro ⟨rfl | hx, hns⟩
          · exact Or.inl rfl
          · by_cases hxt : x = t
            · exact Or.inl hxt
            · exact Or.inr ⟨hx, by simp [hns, hxt]⟩

lemma nodup_newMarkers (l : List ℚ) :
    ∀ seen, (newMarkers seen l).Nodup := by
  induction l with
  | nil => intro seen; simp [newMarkers]
  | cons t ts ih =>
      intro seen
      rw [newMarkers]
      by_cases h : t ∈ seen
      · simp only [h, if_true]; exact ih seen
      · simp only [h, if_false, List.nodup_cons]
        refine ⟨?_, ih (seen ++ [t])⟩
        rw [mem_newMarkers]
        rintro ⟨-, hns⟩
        exact hns (by simp)

lemma newMarkers_sublist (l : List ℚ) :
    ∀ seen, (newMarkers seen l).Sublist l := by
  induction l with
  | nil => intro seen; simp [newMarkers]
  | cons t ts ih =>
      intro seen
      rw [newMarkers]
      by_cases h : t ∈ seen
      · simp only [h, if_true]
        exact (ih seen).cons t
      · simp only [h, if_false]
        exact (ih (seen ++ [t])).cons₂ t

/-- An accumulation loop `acc += g n` over a list equals the initial
value plus the sum of the mapped list. -/
lemma foldl_add_eq_sum (g : ℕ → ℚ) (l : List ℕ) :
    ∀ a : ℚ, l.foldl (fun acc n => acc + g n) a = a + (l.map g).sum := by
  induction l with
  | nil => intro a; simp
  | cons x xs ih =>
      intro a
      rw [List.foldl_cons, ih]
      simp [add_assoc]

/-- Reading every index of a list in order reproduces the list. -/
lemma map_getD_range {α β : Type} (rows : List α) (dflt : α) (g : α → β) :
    (List.range rows.length).map (fun n => g (rows.getD n dflt)) = rows.map g := by
  apply List.ext_getElem
  · simp
  · intro i h1 h2
    have hi : i < rows.length := by simpa using h2
    simp [List.getD_eq_getElem?_getD, List.getElem?_eq_getElem hi]

/-- Indexing a mapped `List.range` at an in-range position. -/
lemma getD_map_range {β : Type} (k : ℕ) (g : ℕ → β) (dflt : β) (i : ℕ)
    (hi : i < k) :
    ((List.range k).map g).getD i dflt = g i := by
  rw [List.getD_eq_getElem?_getD]
  simp [List.getElem?_eq_getElem, hi]

/-- The `[f, 0, d]` entry written by `sumNodalOutput`. -/
lemma sumNodalOutput_entry (st : NodalOut) (f d : ℕ)
    (hf : f < st.totalTime.length) (hd : d < st.componentLabels.length) :
    entryAt (sumNodalOutput st) f 0 d
      = (List.range st.nodeLabels.length).foldl
          (fun acc n => acc + entryAt st f n d) 0 := by
  show (((sumNodalOutput st).resultData.getD f []).getD 0 []).getD d 0 = _
  rw [sumNodalOutput]
  rw [getD_map_range st.totalTime.length _ [] f hf]
  rw [List.getD_cons_zero]
  rw [getD_map_range st.componentLabels.length _ 0 d hd]

/-- The `[f, 0, d]` entry written by `avgNodalOutput`. -/
lemma avgNodalOutput_entry (st : NodalOut) (f d : ℕ)
    (hf : f < st.totalTime.length) (hd : d < st.componentLabels.length) :
    entryAt (avgNodalOutput st) f 0 d
      = npMean ((st.resultData.getD f []).map (fun row => row.getD d 0)) := by
  show (((avgNodalOutput st).resultData.getD f []).getD 0 []).getD d 0 = _
  rw [avgNodalOutput]
  rw [getD_map_range st.totalTime.length _ [] f hf]
  rw [List.getD_cons_zero]
  rw [getD_map_range st.componentLabels.length _ 0 d hd]

/-- The per-component accumulation over `range(len(nodeLabels))` is the
sum over the frame's node axis, provided the axis has `len(nodeLabels)`
rows. -/
lemma sumNodalOutput_entry_as_sum (st : NodalOut) (f d : ℕ)
    (hf : f < st.totalTime.length) (hd : d < st.componentLabels.length)
    (hrow : (st.resultData.getD f []).length = st.nodeLabels.length) :
    entryAt (sumNodalOutput st) f 0 d
      = ((st.resultData.getD f []).map (fun row => row.getD d 0)).sum := by
  rw [sumNodalOutput_entry st f d hf hd, ← hrow, foldl_add_eq_sum, zero_add]
  show ((List.range (st.resultData.getD f []).length).map
    (fun n => ((st.resultData.getD f []).getD n []).getD d 0)).sum = _
  rw [map_getD_range (st.resultData.getD f []) [] (fun row => row.getD d 0)]

end OdbTools

/-! ## Theorems -/

open OdbTools

/-- C9: assigning any of the `odbPath`, `dataName` or `setName` attributes
resets all five result attributes (`totalTime`, `nodeLabels`,
`elementLabels`, `intPtLabels`, `resultData`) to `None`, while installing
the new identifier value. -/
theorem setters_reset_results (st : FieldVarState) (s : String) :
    ((st.setOdbPath s).totalTime = none ∧ (st.setOdbPath s).nodeLabels = none ∧
     (st.setOdbPath s).elementLabels = none ∧ (st.setOdbPath s).intPtLabels = none ∧
     (st.setOdbPath s).resultData = none ∧ (st.setOdbPath s).odbPath = s) ∧
    ((st.setDataName s).totalTime = none ∧ (st.setDataName s).nodeLabels = none ∧
     (st.setDataName s).elementLabels = none ∧ (st.setDataName s).intPtLabels = none ∧
     (st.setDataName s).resultData = none ∧ (st.setDataName s).dataName = s.toUpper) ∧
    ((st.setSetName s).totalTime = none ∧ (st.setSetName s).nodeLabels = none ∧
     (st.setSetName s).elementLabels = none ∧ (st.setSetName s).intPtLabels = none ∧
     (st.setSetName s).resultData = none ∧ (st.setSetName s).setName = s.toUpper) := by
  refine ⟨⟨rfl, rfl, rfl, rfl, rfl, rfl⟩, ⟨rfl, rfl, rfl, rfl, rfl, rfl⟩,
          ⟨rfl, rfl, rfl, rfl, rfl, rfl⟩⟩

/-- C1: for every snapshot's sample stream and every node of the resolved
set with at least one contributing sample, the value computed by
`fetchNodalAverage`'s accumulate-then-divide scheme is the arithmetic mean
of the k samples reported for that node — their sum divided by k — and it
is the entry the output row carries for that node. -/
theorem fetchNodalAverage_is_mean (samples : List Sample) (nodeLabels : List ℕ)
    (n : ℕ) (hmem : n ∈ nodeLabels)
    (hk : 0 < (samplesFor samples n).length) :
    nodalAverageValue samples n
        = (samplesFor samples n).sum / ((samplesFor samples n).length : ℚ) ∧
    nodalAverageValue samples n ∈ averageRow nodeLabels samples := by
  refine ⟨?_, List.mem_map_of_mem _ hmem⟩
  rw [nodalAverageValue, accumulate_fst, accumulate_snd]

/-- Witness for C1: node 10 shared by two element corners reporting 3 and
5 is averaged to (3+5)/2. -/
theorem fetchNodalAverage_is_mean_witness :
    nodalAverageValue [⟨10, 3⟩, ⟨10, 5⟩] 10
        = (samplesFor [⟨10, 3⟩, ⟨10, 5⟩] 10).sum
            / ((samplesFor [⟨10, 3⟩, ⟨10, 5⟩] 10).length : ℚ) ∧
    nodalAverageValue [⟨10, 3⟩, ⟨10, 5⟩] 10
        ∈ averageRow [10, 11] [⟨10, 3⟩, ⟨10, 5⟩] :=
  fetchNodalAverage_is_mean [⟨10, 3⟩, ⟨10, 5⟩] [10, 11] 10 (by decide) (by decide)

/-- C4: the resolved output order is the ascending sort of the set's
labels (a sorted permutation of them); the frame loop computes every
snapshot's row with that one fixed label list; and the averaged row is
invariant under any permutation of the raw sample arrival order. -/
theorem output_order_sorted_fixed_arrival_independent
    (labels : List ℕ) (seen : List ℚ) (ps : List (ℚ × Frame))
    (samples samples' : List Sample) (hp : samples.Perm samples') :
    List.Sorted (· ≤ ·) (fetchNodeLabels labels) ∧
    (fetchNodeLabels labels).Perm labels ∧
    averageRow (fetchNodeLabels labels) samples
      = averageRow (fetchNodeLabels labels) samples' ∧
    fetchRows (fetchNodeLabels labels) seen ps
      = (dedupPairs seen ps).map
          (fun p => (p.1, averageRow (fetchNodeLabels labels) p.2.samples)) := by
  refine ⟨List.sorted_insertionSort _ _, List.perm_insertionSort _ _, ?_,
    fetchRows_eq_map _ _ _⟩
  simp only [averageRow, nodalAverageValue, accumulate, foldl_accumStep_perm hp]

/-- Witness for C4: set `{3, 1}` resolves to column order `[1, 3]`, and
reversing the arrival order of two samples leaves the averaged row
unchanged. -/
theorem output_order_witness :
    (fetchNodeLabels [3, 1]).Perm [3, 1] ∧
    averageRow (fetchNodeLabels [3, 1]) [⟨1, 2⟩, ⟨2, 5⟩]
      = averageRow (fetchNodeLabels [3, 1]) [⟨2, 5⟩, ⟨1, 2⟩] :=
  ⟨(output_order_sorted_fixed_arrival_independent [3, 1] [] []
      [⟨1, 2⟩, ⟨2, 5⟩] [⟨2, 5⟩, ⟨1, 2⟩] (by decide)).2.1,
   (output_order_sorted_fixed_arrival_independent [3, 1] [] []
      [⟨1, 2⟩, ⟨2, 5⟩] [⟨2, 5⟩, ⟨1, 2⟩] (by decide)).2.2.1⟩

/-- C3 counterexample: node 2 of the resolved set `[1, 2]` has zero
contributing samples, yet no error is raised: the sample-count denominator
for node 2 is 0 (not ≥ 1) and the frame still produces a full output row
with an entry for node 2 (`0/0`, a numpy NaN). -/
theorem zero_sample_node_no_error :
    ¬ (∀ n ∈ fetchNodeLabels [1, 2], 1 ≤ (accumulate [⟨1, 3⟩, ⟨1, 5⟩]).2 n) ∧
    (averageRow (fetchNodeLabels [1, 2]) [⟨1, 3⟩, ⟨1, 5⟩]).length = 2 := by
  constructor
  · intro h
    have h2 := h 2 (by decide)
    rw [accumulate_snd] at h2
    norm_num [samplesFor] at h2
  · decide

/-- C3 amended: a node with zero contributing raw samples is not an error:
the averaging loop always yields one entry per resolved node, and the
divisor of each entry is exactly that node's raw sample count — 0 when no
samples carry its label. -/
theorem averaging_total_count_denominator (samples : List Sample)
    (nl : List ℕ) (n : ℕ) :
    (averageRow nl samples).length = nl.length ∧
    (accumulate samples).2 n = ((samplesFor samples n).length : ℚ) ∧
    (samplesFor samples n = [] → (accumulate samples).2 n = 0) := by
  refine ⟨List.length_map _ _, accumulate_snd samples n, fun h => ?_⟩
  rw [accumulate_snd, h]
  simp

/-- Witness for C3's amended theorem at the counterexample input: the row
has entries for both nodes and the denominator for sample-less node 2 is 0. -/
theorem averaging_total_count_denominator_witness :
    (averageRow [1, 2] [⟨1, 3⟩, ⟨1, 5⟩]).length = 2 ∧
    (accumulate [⟨1, 3⟩, ⟨1, 5⟩]).2 2 = 0 := by
  have h := averaging_total_count_denominator [⟨1, 3⟩, ⟨1, 5⟩] [1, 2] 2
  exact ⟨h.1, h.2.2 (by decide)⟩

/-- C2 counterexample: an archive with two steps whose boundary frame is
re-reported (`getNodalPEEQ` markers `frameValue + stepNumber`: step 0
frames 0,1 and step 1 frames 0,1) produces `runCompletion = [0,1,1,2]` —
marker 1 gets two rows, the axis has a duplicate and is not strictly
increasing. -/
theorem getNodalPEEQ_duplicate_rows :
    runCompletion dupOdb [1] = [0, 1, 1, 2] ∧
    (runCompletion dupOdb [1]).count 1 = 2 ∧
    ¬ (runCompletion dupOdb [1]).Nodup := by
  have h : runCompletion dupOdb [1] = [0, 1, 1, 2] := by
    simp [runCompletion, peeqRows, peeqRowsAux, dupOdb]
    norm_num
  refine ⟨h, ?_, ?_⟩
  · rw [h]
    norm_num [List.count_cons]
  · rw [h]
    intro hnd
    have h1 : (1 : ℚ) ∈ [(1 : ℚ), 2] := by norm_num
    exact (List.nodup_cons.mp (List.nodup_cons.mp hnd).2).1 h1

/-- C2 amended: `fetchNodalAverage` does collapse re-reported boundary
frames — its `totalTime` axis holds each marker exactly once (one output
row per marker), and it is strictly increasing whenever the archive's
chronological marker sequence is non-decreasing; `getNodalPEEQ` in
contrast keeps one row per frame, duplicates included. -/
theorem fetchTotalTime_nodup_one_row (odb : Odb) (nl : List ℕ) :
    (fetchTotalTime odb nl).Nodup ∧
    (∀ t ∈ rawMarkers odb, (fetchTotalTime odb nl).count t = 1) ∧
    (List.Sorted (· ≤ ·) (rawMarkers odb) →
      List.Sorted (· < ·) (fetchTotalTime odb nl)) := by
  have hm : fetchTotalTime odb nl = newMarkers [] (rawMarkers odb) :=
    fetchRows_markers nl (framePairs odb) []
  have hnd : (fetchTotalTime odb nl).Nodup := by
    rw [hm]; exact nodup_newMarkers _ _
  refine ⟨hnd, ?_, ?_⟩
  · intro t ht
    refine List.nodup_iff_count_eq_one.mp hnd t ?_
    rw [hm, mem_newMarkers]
    exact ⟨ht, by simp⟩
  · intro hs
    refine List.Sorted.lt_of_le ?_ hnd
    rw [hm]
    exact List.Pairwise.sublist (newMarkers_sublist _ _) hs

/-- Witness for C2's amended theorem: on the counterexample archive the
`totalTime` axis of `fetchNodalAverage` is `[0, 1, 2]` — duplicate-free,
one row per marker, strictly increasing. -/
theorem fetchTotalTime_nodup_one_row_witness :
    (fetchTotalTime dupOdb [1]).Nodup ∧
    (fetchTotalTime dupOdb [1]).count 1 = 1 ∧
    List.Sorted (· < ·) (fetchTotalTime dupOdb [1]) := by
  have hraw : rawMarkers dupOdb = [0, 1, 1, 2] := by
    simp [rawMarkers, framePairs, dupOdb]
    norm_num
  have h := fetchTotalTime_nodup_one_row dupOdb [1]
  refine ⟨h.1, h.2.1 1 ?_, h.2.2 ?_⟩
  · rw [hraw]
    norm_num
  · rw [hraw]
    norm_num [List.Sorted, List.pairwise_cons]

/-- C8: at the concrete input (archive base name `X`, set name `A\B`,
quantity `PEEQ`) the derived filename keeps the backslash, a
Windows-illegal filename character: `safe_filename`'s character class
escapes the pipe instead of matching the backslash. -/
theorem saveFileName_keeps_backslash :
    saveFileName "X" "A\\B" "PEEQ" = "X_A\\B_PEEQ.csv" ∧
    '\\' ∈ (saveFileName "X" "A\\B" "PEEQ").toList ∧
    '\\' ∈ windowsIllegalChars := by
  refine ⟨rfl, ?_, ?_⟩ <;> decide

/-- C5: for every fetched multi-component nodal result whose node axis
matches its label list, every in-range snapshot and component: the
across-set sum divided by the entity count equals the across-set mean. -/
theorem sum_div_count_eq_avg (st : NodalOut) (f d : ℕ)
    (hf : f < st.totalTime.length) (hd : d < st.componentLabels.length)
    (hrow : (st.resultData.getD f []).length = st.nodeLabels.length) :
    entryAt (sumNodalOutput st) f 0 d / (st.nodeLabels.length : ℚ)
      = entryAt (avgNodalOutput st) f 0 d := by
  rw [sumNodalOutput_entry_as_sum st f d hf hd hrow,
      avgNodalOutput_entry st f d hf hd, npMean, List.length_map, hrow]

/-- Witness for C5 at a concrete 2-frame, 2-node, 2-component state. -/
theorem sum_div_count_eq_avg_witness :
    entryAt (sumNodalOutput sampleNodalOut) 1 0 0
        / (sampleNodalOut.nodeLabels.length : ℚ)
      = entryAt (avgNodalOutput sampleNodalOut) 1 0 0 :=
  sum_div_count_eq_avg sampleNodalOut 1 0 (by decide) (by decide) (by decide)

/-- C10: `sumNodalOutput` produces a (frame, 1, component) array whose
`[f,0,d]` entry is the sum of the old `[f,n,d]` entries over the node
axis, replaces `nodeLabels` by `(-1,)`, prefixes each component label with
`summed`, and leaves `totalTime` unchanged; `avgNodalOutput` does the same
with prefix `average` and the mean in place of the sum. -/
theorem sum_avg_nodal_output_shape (st : NodalOut) (f d : ℕ)
    (hf : f < st.totalTime.length) (hd : d < st.componentLabels.length)
    (hrow : (st.resultData.getD f []).length = st.nodeLabels.length) :
    ((sumNodalOutput st).totalTime = st.totalTime ∧
     (sumNodalOutput st).nodeLabels = [-1] ∧
     (sumNodalOutput st).componentLabels
        = st.componentLabels.map (fun c => "summed" ++ c) ∧
     (sumNodalOutput st).resultData.length = st.totalTime.length ∧
     ((sumNodalOutput st).resultData.getD f []).length = 1 ∧
     (((sumNodalOutput st).resultData.getD f []).getD 0 []).length
        = st.componentLabels.length ∧
     entryAt (sumNodalOutput st) f 0 d
        = ((st.resultData.getD f []).map (fun row => row.getD d 0)).sum) ∧
    ((avgNodalOutput st).totalTime = st.totalTime ∧
     (avgNodalOutput st).nodeLabels = [-1] ∧
     (avgNodalOutput st).componentLabels
        = st.componentLabels.map (fun c => "average" ++ c) ∧
     (avgNodalOutput st).resultData.length = st.totalTime.length ∧
     ((avgNodalOutput st).resultData.getD f []).length = 1 ∧
     (((avgNodalOutput st).resultData.getD f []).getD 0 []).length
        = st.componentLabels.length ∧
     entryAt (avgNodalOutput st) f 0 d
        = ((st.resultData.getD f []).map (fun row => row.getD d 0)).sum
            / (st.nodeLabels.length : ℚ)) := by
  refine ⟨⟨rfl, rfl, rfl, by simp [sumNodalOutput], ?_, ?_,
            sumNodalOutput_entry_as_sum st f d hf hd hrow⟩,
          ⟨rfl, rfl, rfl, by simp [avgNodalOutput], ?_, ?_, ?_⟩⟩
  · rw [sumNodalOutput, getD_map_range st.totalTime.length _ [] f hf]
    rfl
  · rw [sumNodalOutput, getD_map_range st.totalTime.length _ [] f hf,
        List.getD_cons_zero]
    simp
  · rw [avgNodalOutput, getD_map_range st.totalTime.length _ [] f hf]
    rfl
  · rw [avgNodalOutput, getD_map_range st.totalTime.length _ [] f hf,
        List.getD_cons_zero]
    simp
  · rw [avgNodalOutput_entry st f d hf hd, npMean, List.length_map, hrow]

/-- Witness for C10 at the concrete state: placeholder labels, `summed` /
`average` prefixes, and the `[1,0,0]` entries. -/
theorem sum_avg_nodal_output_shape_witness :
    (sumNodalOutput sampleNodalOut).nodeLabels = [-1] ∧
    (sumNodalOutput sampleNodalOut).componentLabels
        = sampleNodalOut.componentLabels.map (fun c => "summed" ++ c) ∧
    entryAt (sumNodalOutput sampleNodalOut) 1 0 0
        = ((sampleNodalOut.resultData.getD 1 []).map (fun row => row.getD 0 0)).sum ∧
    (avgNodalOutput sampleNodalOut).componentLabels
        = sampleNodalOut.componentLabels.map (fun c => "average" ++ c) ∧
    (avgNodalOutput sampleNodalOut).totalTime = sampleNodalOut.totalTime := by
  obtain ⟨hsum, havg⟩ :=
    sum_avg_nodal_output_shape sampleNodalOut 1 0 (by decide) (by decide) (by decide)
  exact ⟨hsum.2.1, hsum.2.2.1, hsum.2.2.2.2.2.2, havg.2.2.1, havg.1⟩

/-- C6 counterexample: for the unsupported quantity name `FOO` on an
archive with a valid set, the run does fail with the
unsupported-quantity error, but the archive was already opened and the
set already looked up when it is raised — not before any archive I/O. -/
theorem unsupported_quantity_after_archive_open :
    (fetchNodalAverageRun dupOdb "SET" "FOO").2
        = Except.error AbqError.unsupportedQuantity ∧
    (fetchNodalAverageRun dupOdb "SET" "FOO").1
        = [AbqEvent.openArchive, AbqEvent.setLookup] ∧
    AbqEvent.openArchive ∈ (fetchNodalAverageRun dupOdb "SET" "FOO").1 := by
  refine ⟨rfl, rfl, ?_⟩
  show AbqEvent.openArchive ∈ [AbqEvent.openArchive, AbqEvent.setLookup]
  simp

/-- C6 amended: any quantity name outside {PEEQ, MISES, PRESS, INV3}
makes the extraction fail with the unsupported-quantity exception, but the
failure is raised during the key-existence probe of
`_open_odb_check_keys` — after the archive is opened and the set is looked
up, not before archive I/O. -/
theorem unsupported_quantity_raises_after_checks (odb : Odb)
    (setName dataName : String) (labels : List ℕ)
    (hset : lookupSet odb.nodeSets setName = some labels)
    (hname : dataName ∉ ["PEEQ", "MISES", "PRESS", "INV3"]) :
    (fetchNodalAverageRun odb setName dataName).2
        = Except.error AbqError.unsupportedQuantity ∧
    (fetchNodalAverageRun odb setName dataName).1
        = [AbqEvent.openArchive, AbqEvent.setLookup] := by
  have hkey : keyName dataName = Except.error AbqError.unsupportedQuantity := by
    simp only [List.mem_cons, List.mem_singleton, not_or] at hname
    obtain ⟨h1, h2, h3, h4, -⟩ := hname
    simp [keyName, h1, h2, h3, h4]
  constructor <;> simp [fetchNodalAverageRun, open_odb_check_keys, hset, hkey]

/-- Witness for C6's amended theorem at the counterexample input. -/
theorem unsupported_quantity_raises_after_checks_witness :
    (fetchNodalAverageRun dupOdb "SET" "FOO").1
        = [AbqEvent.openArchive, AbqEvent.setLookup] :=
  (unsupported_quantity_raises_after_checks dupOdb "SET" "FOO" [1]
    (by decide) (by decide)).2

/-- C7: when the requested key (of a supported quantity) is absent from
the last frame of the last step, the run aborts with the key-not-defined
error, the trace is open → set lookup → key probe → close (the handle is
closed before the error surfaces) and no frame is walked; likewise a
missing set name aborts with set-not-found after closing, before any
frame walk. -/
theorem key_probe_last_frame_closes_before_error (odb : Odb)
    (setName dataName : String) :
    (∀ labels k, lookupSet odb.nodeSets setName = some labels →
      keyName dataName = Except.ok k →
      k ∉ lastFrameFieldKeys odb →
      (fetchNodalAverageRun odb setName dataName).2
          = Except.error AbqError.keyNotDefined ∧
      (fetchNodalAverageRun odb setName dataName).1
          = [AbqEvent.openArchive, AbqEvent.setLookup, AbqEvent.keyProbe,
             AbqEvent.closeArchive] ∧
      AbqEvent.frameWalk ∉ (fetchNodalAverageRun odb setName dataName).1) ∧
    (lookupSet odb.nodeSets setName = none →
      (fetchNodalAverageRun odb setName dataName).2
          = Except.error AbqError.setNotFound ∧
      (fetchNodalAverageRun odb setName dataName).1
          = [AbqEvent.openArchive, AbqEvent.setLookup, AbqEvent.closeArchive] ∧
      AbqEvent.frameWalk ∉ (fetchNodalAverageRun odb setName dataName).1) := by
  constructor
  · intro labels k hset hkey hmem
    refine ⟨?_, ?_, ?_⟩ <;>
      simp [fetchNodalAverageRun, open_odb_check_keys, hset, hkey, hmem]
  · intro hset
    refine ⟨?_, ?_, ?_⟩ <;>
      simp [fetchNodalAverageRun, open_odb_check_keys, hset]

/-- Witness for C7: `PEEQ` is absent from the last frame of `noKeyOdb`
(which stores only `S`), and set `MISSING` does not exist there. -/
theorem key_probe_last_frame_witness :
    (fetchNodalAverageRun noKeyOdb "SET" "PEEQ").2
        = Except.error AbqError.keyNotDefined ∧
    (fetchNodalAverageRun noKeyOdb "SET" "PEEQ").1
        = [AbqEvent.openArchive, AbqEvent.setLookup, AbqEvent.keyProbe,
           AbqEvent.closeArchive] ∧
    (fetchNodalAverageRun noKeyOdb "MISSING" "PEEQ").2
        = Except.error AbqError.setNotFound := by
  have h := key_probe_last_frame_closes_before_error noKeyOdb "SET" "PEEQ"
  have h2 := key_probe_last_frame_closes_before_error noKeyOdb "MISSING" "PEEQ"
  have ha := h.1 [1] "PEEQ" (by rfl) (by rfl) (by decide)
  exact ⟨ha.1, ha.2.1, (h2.2 (by rfl)).1⟩
